import Mathlib

/-!
Verification of the golink URL-shortener core: the `Link` entity
(`backend/models/link.go`), the pure access and expiry evaluators, the
in-memory repository contract (`backend/tests/e2e/mocks/mock_link_repository.go`
and `backend/repositories/link_repository.go`), and the two HTTP link-handler
variants (`handlers` package: the auth-aware variant and the legacy variant).

Go `time.Time` values are modelled as integer nanoseconds since the epoch;
the Go zero time is modelled as `0`.  Go maps keyed by short code are
modelled as functions `String → Option Link`.  Every occurrence of
`time.Now()` during a single request is modelled by one `now` parameter;
detached background writes take their own write-time parameter.
-/

namespace Golink

/-- Time instants in integer nanoseconds; `0` models the Go zero `time.Time`. -/
abbrev Time := Int

/-- Go `models.Link`: one document per short code (`backend/models/link.go`). -/
structure Link where
  createdAt : Time
  updatedAt : Time
  expiresAt : Time
  id : String
  short : String
  url : String
  createdBy : String
  accessLevel : String
  allowedUsers : List String
  clickCount : Int
  isExpired : Bool
deriving DecidableEq, Repr

/-- Go `models.AccessLevels.Public`. -/
def AccessLevels.Public : String := "Public"

/-- Go `models.AccessLevels.Private`. -/
def AccessLevels.Private : String := "Private"

/-- Go `models.AccessLevels.Restricted`. -/
def AccessLevels.Restricted : String := "Restricted"

/-- Go `models.NewLink`: defaults — access level Public, no allowed users,
zero clicks, not expired, both timestamps `now`, zero expiry. -/
def NewLink (short url createdBy : String) (now : Time) : Link :=
  { id := short
    short := short
    url := url
    createdAt := now
    updatedAt := now
    expiresAt := 0
    createdBy := createdBy
    accessLevel := AccessLevels.Public
    allowedUsers := []
    clickCount := 0
    isExpired := false }

/-- Go `Link.SetExpiry`: sets the expiration time and refreshes `UpdatedAt`. -/
def Link.SetExpiry (l : Link) (expires : Time) (now : Time) : Link :=
  { l with expiresAt := expires, updatedAt := now }

/-- Go `Link.IsLinkExpired`: `false` when `ExpiresAt` is zero, otherwise
whether `now` is strictly after the expiration time. -/
def Link.IsLinkExpired (l : Link) (now : Time) : Bool :=
  if l.expiresAt = 0 then false
  else if l.expiresAt < now then true else false

/-- Nanoseconds per day: the divisor behind `Sub(now).Hours() / 24`. -/
def nsPerDay : Int := 86400000000000

/-- The `daysUntilExpiry` quantity from `Link.IsExpiringOrExpired`, as an exact rational:
`(ExpiresAt - now)` in nanoseconds divided by one day of nanoseconds. -/
def daysUntilExpiry (l : Link) (now : Time) : ℚ :=
  ((l.expiresAt - now : Int) : ℚ) / ((nsPerDay : Int) : ℚ)

/-- Go `Link.IsExpiringOrExpired` (`backend/models/link.go`): the expiry-status
badge `(flag, reason)`. -/
def Link.IsExpiringOrExpired (l : Link) (now : Time) : Bool × String :=
  if l.expiresAt = 0 then (false, "")
  else if l.isExpired then (true, "expired")
  else
    let d := daysUntilExpiry l now
    if d < 0 then (true, "expired")
    else if d < 1 then (true, "expiring_today")
    else if d < 7 then (true, "expiring_soon")
    else (false, "")

/-- The allowed-users loop in `LinkRepository.CheckAccess`: linear scan with
exact string comparison. -/
def containsUser : List String → String → Bool
  | [], _ => false
  | u :: rest, userID => if u = userID then true else containsUser rest userID

/-- The access decision of `LinkRepository.CheckAccess`
(`backend/repositories/link_repository.go`) after the link is loaded; the
mock repository `MockLinkRepository.CheckAccess` has the same body. -/
def CheckAccess (link : Link) (userID : String) : Bool :=
  if link.accessLevel = AccessLevels.Public then true
  else if link.accessLevel = AccessLevels.Private then link.createdBy = userID
  else if link.accessLevel = AccessLevels.Restricted then
    if link.createdBy = userID then true
    else containsUser link.allowedUsers userID
  else false

/-- Error kinds of `pkg/errors` as the repository raises them. -/
inductive ErrKind where
  | NotFound : ErrKind
  | AlreadyExists : ErrKind
  | Internal : ErrKind
deriving DecidableEq, Repr

/-- The backing map of the repository (`map[string]*models.Link` in the mock,
documents keyed by short code in Firestore), as a partial map. -/
abbrev Store := String → Option Link

/-- The empty repository. -/
def emptyStore : Store := fun _ => none

/-- Writing the document of one short code (map assignment / `Doc(short).Set`). -/
def setLink (s : Store) (short : String) (v : Link) : Store :=
  fun k => if k = short then some v else s k

/-- Removing the document of one short code (`delete(r.links, short)` /
`Doc(short).Delete`). -/
def eraseLink (s : Store) (short : String) : Store :=
  fun k => if k = short then none else s k

/-- Go `MockLinkRepository.Create` (e2e mock): `AlreadyExists` when the short
code is taken and the map untouched; otherwise stamps
`createdAt = updatedAt = now` and stores the link.  The production
`LinkRepository.Create` has the same observable behaviour. -/
def create (s : Store) (now : Time) (link : Link) : Option ErrKind × Store :=
  match s link.short with
  | some _ => (some ErrKind.AlreadyExists, s)
  | none =>
      let stamped := { link with createdAt := now, updatedAt := now }
      (none, setLink s link.short stamped)

/-- The expiry-flag flip that `GetByShort` applies to the returned copy:
flip `isExpired` to `true` when `expiresAt` is non-zero, `now` is after it,
and the flag is still `false`; otherwise return the link unchanged. -/
def expireOnRead (l : Link) (now : Time) : Link :=
  if l.expiresAt ≠ 0 ∧ l.expiresAt < now ∧ l.isExpired = false then
    { l with isExpired := true }
  else l

/-- The value `GetByShort` returns to its caller
(`LinkRepository.GetByShort`, `backend/repositories/link_repository.go`):
`NotFound` when absent, otherwise the stored link with the expiry flag
possibly flipped on the returned copy. -/
def getByShort (s : Store) (now : Time) (short : String) : Except ErrKind Link :=
  match s short with
  | none => Except.error ErrKind.NotFound
  | some l => Except.ok (expireOnRead l now)

/-- Model of `GetByShort` together with its detached background write: when the read
observes an expired, still-unflagged link it fires a goroutine running
`Update` on the flipped copy (which stamps `updatedAt` with the write time
`wnow`).  `writeOk` says whether that best-effort write succeeds; the
returned value never depends on it. -/
def getByShortRun (s : Store) (now wnow : Time) (short : String)
    (writeOk : Bool) : Except ErrKind Link × Store :=
  match s short with
  | none => (Except.error ErrKind.NotFound, s)
  | some l =>
      if l.expiresAt ≠ 0 ∧ l.expiresAt < now ∧ l.isExpired = false then
        let flipped := { l with isExpired := true }
        (Except.ok flipped,
          if writeOk then setLink s short { flipped with updatedAt := wnow } else s)
      else (Except.ok l, s)

/-- Go `MockLinkRepository.Update`: `NotFound` when the short code is absent;
otherwise refreshes `updatedAt` and overwrites the whole record. -/
def update (s : Store) (now : Time) (link : Link) : Option ErrKind × Store :=
  match s link.short with
  | none => (some ErrKind.NotFound, s)
  | some _ => (none, setLink s link.short { link with updatedAt := now })

/-- Go `MockLinkRepository.Delete`: `NotFound` when absent; otherwise removes
the record. -/
def deleteShort (s : Store) (short : String) : Option ErrKind × Store :=
  match s short with
  | none => (some ErrKind.NotFound, s)
  | some _ => (none, eraseLink s short)

/-- Go `MockLinkRepository.IncrementClickCount`: `NotFound` when absent;
otherwise `clickCount += 1` and `updatedAt = now`, nothing else changes. -/
def incrementClickCount (s : Store) (now : Time) (short : String) :
    Option ErrKind × Store :=
  match s short with
  | none => (some ErrKind.NotFound, s)
  | some link =>
      (none, setLink s short
        { link with clickCount := link.clickCount + 1, updatedAt := now })

/-- The `expires_at` JSON string of a create/update request after
`time.Parse(time.RFC3339, ·)`.  Go JSON decoding cannot distinguish an
omitted field from an explicit empty string: both decode to `""`, modelled
by `empty`.  `invalid` is a non-empty string that fails to parse; `given t`
is a string that parses to instant `t`. -/
inductive ExpiryField where
  | empty : ExpiryField
  | invalid : ExpiryField
  | given : Time → ExpiryField
deriving DecidableEq, Repr

/-- The decoded request body of the auth-aware `CreateLink`. -/
structure CreateRequest where
  short : String
  url : String
  accessLevel : String
  expiresAt : ExpiryField
  allowedUsers : List String
deriving DecidableEq, Repr

/-- The decoded request body of the auth-aware `UpdateLink`.  `allowedUsers`
is `none` when the JSON field is absent (a nil slice in Go). -/
structure UpdateRequest where
  url : String
  accessLevel : String
  expiresAt : ExpiryField
  allowedUsers : Option (List String)
deriving DecidableEq, Repr

/-- The short-code pattern `^[a-zA-Z0-9-]+$` checked at creation: at least
one character, each an ASCII letter, digit or hyphen. -/
def validShortCode (s : String) : Bool :=
  !s.data.isEmpty && s.data.all (fun c => c.isAlphanum || c == '-')

/-- Go `getUserFromContext` (auth-aware handlers): the authenticated user from
the request context when present, otherwise the `X-User-ID` header, falling
back to `"anonymous"` when that is empty.  Returns `(id, email)`. -/
def getUserFromContext (ctxUser : Option (String × String))
    (headerUserID : String) : String × String :=
  match ctxUser with
  | some u => u
  | none => (if headerUserID = "" then "anonymous" else headerUserID, "")

/-- Outcome of a create handler, with the new store on success. -/
inductive CreateResult where
  | badRequest : String → CreateResult
  | conflict : CreateResult
  | internalError : CreateResult
  | created : Link → Store → CreateResult

/-- The link a create handler responded with, if it succeeded. -/
def createResultLink : CreateResult → Option Link
  | CreateResult.created l _ => some l
  | _ => none

/-- The store after a create handler, if it succeeded. -/
def createResultStore : CreateResult → Option Store
  | CreateResult.created _ s => some s
  | _ => none

/-- Outcome of the update handler. -/
inductive UpdateResult where
  | badRequest : String → UpdateResult
  | notFound : UpdateResult
  | forbidden : UpdateResult
  | internalError : UpdateResult
  | ok : Link → Store → UpdateResult

/-- The link the update handler responded with, if it succeeded. -/
def updateResultLink : UpdateResult → Option Link
  | UpdateResult.ok l _ => some l
  | _ => none

/-- The store after the update handler, if it succeeded. -/
def updateResultStore : UpdateResult → Option Store
  | UpdateResult.ok _ s => some s
  | _ => none

/-- Outcome of the delete handler. -/
inductive DeleteResult where
  | badRequest : DeleteResult
  | notFound : DeleteResult
  | forbidden : DeleteResult
  | internalError : DeleteResult
  | noContent : Store → DeleteResult

/-- Outcome of a redirect handler. -/
inductive RedirectResult where
  | badRequest : RedirectResult
  | notFound : RedirectResult
  | gone : RedirectResult
  | forbidden : RedirectResult
  | internalError : RedirectResult
  | redirect : String → RedirectResult
deriving DecidableEq, Repr

/-- Persisting a freshly built link in a create handler: `repo.Create`
stamps the timestamps through the shared pointer, so the handler responds
with the stamped link. -/
def saveNewLink (s : Store) (now : Time) (link : Link) : CreateResult :=
  match create s now link with
  | (some _, _) => CreateResult.internalError
  | (none, s2) =>
      CreateResult.created { link with createdAt := now, updatedAt := now } s2

/-- Persisting the updated link in the update handler: the handler sets
`UpdatedAt = now`, `repo.Update` stamps it again with the same clock. -/
def saveUpdatedLink (s : Store) (now : Time) (link : Link) : UpdateResult :=
  let stamped := { link with updatedAt := now }
  match update s now stamped with
  | (some _, _) => UpdateResult.internalError
  | (none, s2) => UpdateResult.ok stamped s2

namespace AuthVariant

/-- Go `LinkHandler.CreateLink`, auth-aware variant: empty short code is
rejected; an empty URL falls back to the placeholder
`https://example.com`; the short code must match `^[a-zA-Z0-9-]+$`; a taken
short code is a conflict; an access level outside
{Public, Private, Restricted} (or an empty one) silently becomes Public;
allowed users are kept only for Restricted links; a malformed or past
`expires_at` is rejected, a future one is set via `SetExpiry`. -/
def CreateLink (s : Store) (now : Time) (req : CreateRequest)
    (userID : String) : CreateResult :=
  if req.short = "" then CreateResult.badRequest "Short code is required"
  else
    let targetURL := if req.url = "" then "https://example.com" else req.url
    if validShortCode req.short = false then
      CreateResult.badRequest "Short code must contain only letters, numbers, and hyphens"
    else
      match s req.short with
      | some _ => CreateResult.conflict
      | none =>
          let link0 := NewLink req.short targetURL userID now
          let link1 := { link0 with accessLevel :=
            if req.accessLevel ≠ "" ∧
                (req.accessLevel = AccessLevels.Public ∨
                 req.accessLevel = AccessLevels.Private ∨
                 req.accessLevel = AccessLevels.Restricted) then
              req.accessLevel
            else AccessLevels.Public }
          let link2 := { link1 with allowedUsers :=
            if link1.accessLevel = AccessLevels.Restricted ∧
                req.allowedUsers ≠ [] then
              req.allowedUsers
            else [] }
          match req.expiresAt with
          | ExpiryField.invalid =>
              CreateResult.badRequest "Invalid expiry date format"
          | ExpiryField.given t =>
              if t < now then
                CreateResult.badRequest "Expiry date must be in the future"
              else saveNewLink s now (link2.SetExpiry t now)
          | ExpiryField.empty => saveNewLink s now link2

/-- The field-merge-and-persist tail of the auth-aware `UpdateLink`, after
the creator-only gate has passed: merge the non-empty request fields into
the loaded link, keep allowed users only for Restricted links, then handle
`expires_at` — a malformed value or one in the past is rejected, a future
one is set via `SetExpiry`, and an omitted-or-empty one on a link that has
an expiry clears `expiresAt` and resets `isExpired`; persist via
`repo.Update`. -/
def applyUpdate (s : Store) (now : Time) (req : UpdateRequest)
    (link : Link) : UpdateResult :=
  let link1 := if req.url ≠ "" then { link with url := req.url } else link
  let link2 :=
    if req.accessLevel ≠ "" ∧
        (req.accessLevel = AccessLevels.Public ∨
         req.accessLevel = AccessLevels.Private ∨
         req.accessLevel = AccessLevels.Restricted) then
      { link1 with accessLevel := req.accessLevel }
    else link1
  let link3 :=
    if link2.accessLevel = AccessLevels.Restricted ∧
        req.allowedUsers ≠ none then
      { link2 with allowedUsers := req.allowedUsers.getD [] }
    else link2
  match req.expiresAt with
  | ExpiryField.invalid =>
      UpdateResult.badRequest "Invalid expiry date format"
  | ExpiryField.given t =>
      if t < now then
        UpdateResult.badRequest "Expiry date must be in the future"
      else saveUpdatedLink s now (link3.SetExpiry t now)
  | ExpiryField.empty =>
      if link3.expiresAt ≠ 0 then
        saveUpdatedLink s now
          { link3 with expiresAt := 0, isExpired := false }
      else saveUpdatedLink s now link3

/-- Go `LinkHandler.UpdateLink`, auth-aware variant: loads the link (through
`GetByShort`, so the returned copy may have its expiry flag flipped);
rejects non-creators with Forbidden unless the requester is `"anonymous"`
or auth is disabled; then merges and persists via `applyUpdate`. -/
def UpdateLink (s : Store) (now : Time) (short userID : String)
    (authEnabled : Bool) (req : UpdateRequest) : UpdateResult :=
  if short = "" then UpdateResult.badRequest "Short code is required"
  else
    match s short with
    | none => UpdateResult.notFound
    | some l0 =>
        let link := expireOnRead l0 now
        if userID ≠ "anonymous" ∧ link.createdBy ≠ userID ∧
            authEnabled = true then
          UpdateResult.forbidden
        else applyUpdate s now req link

/-- Go `LinkHandler.DeleteLink`, auth-aware variant: same creator-only gate as
`UpdateLink`, then `repo.Delete`. -/
def DeleteLink (s : Store) (now : Time) (short userID : String)
    (authEnabled : Bool) : DeleteResult :=
  if short = "" then DeleteResult.badRequest
  else
    match s short with
    | none => DeleteResult.notFound
    | some l0 =>
        let link := expireOnRead l0 now
        if userID ≠ "anonymous" ∧ link.createdBy ≠ userID ∧
            authEnabled = true then
          DeleteResult.forbidden
        else
          match deleteShort s short with
          | (some _, _) => DeleteResult.internalError
          | (none, s2) => DeleteResult.noContent s2

/-- The static-path screen at the top of the auth-aware `RedirectLink`
(`strings.HasPrefix` is a character-prefix test on the path). -/
def isStaticPath (path : String) : Bool :=
  path == "" || path == "index.html" || path == "favicon.ico" ||
    "static/".data.isPrefixOf path.data || "assets/".data.isPrefixOf path.data

/-- Go `LinkHandler.RedirectLink`, auth-aware variant: loads the link, rejects
expired links with 410 Gone (marking them expired as a side effect), then
gates on access control and redirects to the target URL. -/
def RedirectLink (s : Store) (now : Time) (path userID : String) :
    RedirectResult :=
  if isStaticPath path then RedirectResult.notFound
  else
    match s path with
    | none => RedirectResult.notFound
    | some l0 =>
        let link := expireOnRead l0 now
        if link.IsLinkExpired now then RedirectResult.gone
        else
          let hasAccess :=
            if userID ≠ "" then CheckAccess link userID
            else link.accessLevel = AccessLevels.Public
          if hasAccess then RedirectResult.redirect link.url
          else RedirectResult.forbidden

end AuthVariant

namespace LegacyVariant

/-- Go `LinkHandler.CreateLink`, legacy variant: the request body carries only
`short` and `url`; an empty URL falls back to `https://example.com`; the
stored link is forced to Public with no allowed users and no expiry. -/
def CreateLink (s : Store) (now : Time) (short url headerUserID : String) :
    CreateResult :=
  if short = "" then CreateResult.badRequest "Short code is required"
  else
    let targetURL := if url = "" then "https://example.com" else url
    if validShortCode short = false then
      CreateResult.badRequest "Short code must contain only letters, numbers, and hyphens"
    else
      let userID := if headerUserID = "" then "anonymous" else headerUserID
      match s short with
      | some _ => CreateResult.conflict
      | none =>
          let link0 := NewLink short targetURL userID now
          let link1 := { link0 with
            accessLevel := AccessLevels.Public, allowedUsers := [] }
          saveNewLink s now link1

/-- Go `LinkHandler.RedirectLink`, legacy variant: loads the link and gates on
access control only — it performs no expiry check before redirecting. -/
def RedirectLink (s : Store) (now : Time) (short userID : String) :
    RedirectResult :=
  if short = "" then RedirectResult.badRequest
  else
    match s short with
    | none => RedirectResult.notFound
    | some l0 =>
        let link := expireOnRead l0 now
        let hasAccess :=
          if userID ≠ "" then CheckAccess link userID
          else link.accessLevel = AccessLevels.Public
        if hasAccess then RedirectResult.redirect link.url
        else RedirectResult.forbidden

end LegacyVariant

/-! Helper lemmas shared by the claim theorems. -/

theorem containsUser_iff (us : List String) (userID : String) :
    containsUser us userID = true ↔ userID ∈ us := by
  induction us with
  | nil => simp [containsUser]
  | cons u rest ih =>
      by_cases h : u = userID
      · simp [containsUser, h]
      · simp [containsUser, h, ih, Ne.symm h]

theorem expireOnRead_createdBy (l : Link) (now : Time) :
    (expireOnRead l now).createdBy = l.createdBy := by
  unfold expireOnRead
  split <;> rfl

theorem expireOnRead_expiresAt (l : Link) (now : Time) :
    (expireOnRead l now).expiresAt = l.expiresAt := by
  unfold expireOnRead
  split <;> rfl

/-- Claim C1: `CheckAccess` returns `true` iff the link is Public, or
Private and the identity is the creator, or Restricted and the identity is
the creator or an element of the allowed-users list (exact string
comparison); in every other case, including access levels outside
{Public, Private, Restricted}, it returns `false`. -/
theorem checkAccess_iff (link : Link) (userID : String) :
    (CheckAccess link userID = true ↔
      (link.accessLevel = AccessLevels.Public ∨
       (link.accessLevel = AccessLevels.Private ∧
         userID = link.createdBy) ∨
       (link.accessLevel = AccessLevels.Restricted ∧
         (userID = link.createdBy ∨ userID ∈ link.allowedUsers)))) ∧
    (link.accessLevel ≠ AccessLevels.Public →
      link.accessLevel ≠ AccessLevels.Private →
      link.accessLevel ≠ AccessLevels.Restricted →
      CheckAccess link userID = false) := by
  constructor
  · unfold CheckAccess
    split_ifs with h1 h2 h3 h4
    · simp [h1]
    · rw [decide_eq_true_eq]
      constructor
      · intro hc
        exact Or.inr (Or.inl ⟨h2, hc.symm⟩)
      · rintro (hp | ⟨_, hcre⟩ | ⟨hres, _⟩)
        · exact absurd hp h1
        · exact hcre.symm
        · rw [h2] at hres
          exact absurd hres (by decide)
    · constructor
      · intro _
        exact Or.inr (Or.inr ⟨h3, Or.inl h4.symm⟩)
      · intro _
        rfl
    · rw [containsUser_iff]
      constructor
      · intro hm
        exact Or.inr (Or.inr ⟨h3, Or.inr hm⟩)
      · rintro (hp | ⟨hpriv, _⟩ | ⟨_, hcre | hm⟩)
        · exact absurd hp h1
        · exact absurd hpriv h2
        · exact absurd hcre.symm h4
        · exact hm
    · constructor
      · intro hfalse
        exact absurd hfalse (by decide)
      · rintro (hp | ⟨hpriv, _⟩ | ⟨hres, _⟩)
        · exact absurd hp h1
        · exact absurd hpriv h2
        · exact absurd hres h3
  · intro h1 h2 h3
    unfold CheckAccess
    simp [h1, h2, h3]

def c1Link : Link :=
  { createdAt := 1
    updatedAt := 1
    expiresAt := 0
    id := "abc"
    short := "abc"
    url := "https://x.example"
    createdBy := "u1"
    accessLevel := "Admin"
    allowedUsers := ["u2"]
    clickCount := 0
    isExpired := false }

/-- Witness for C1: a link whose access level is the out-of-range string
`"Admin"` denies access even to its creator. -/
theorem checkAccess_iff_witness : CheckAccess c1Link "u1" = false :=
  (checkAccess_iff c1Link "u1").2 (by decide) (by decide) (by decide)

/-- Claim C2: the expiry-status badge `IsExpiringOrExpired` — `(false, "")`
when `expiresAt` is zero; `(true, "expired")` when the sticky flag is
already set; otherwise, with `daysUntilExpiry = (expiresAt - now) / 24h`,
`(true, "expired")` below 0 days, `(true, "expiring_today")` below 1,
`(true, "expiring_soon")` below 7, and `(false, "")` from 7 on. -/
theorem isExpiringOrExpired_cases (l : Link) (now : Time) :
    (l.expiresAt = 0 → l.IsExpiringOrExpired now = (false, "")) ∧
    (l.expiresAt ≠ 0 → l.isExpired = true →
      l.IsExpiringOrExpired now = (true, "expired")) ∧
    (l.expiresAt ≠ 0 → l.isExpired = false →
      daysUntilExpiry l now < 0 →
      l.IsExpiringOrExpired now = (true, "expired")) ∧
    (l.expiresAt ≠ 0 → l.isExpired = false →
      0 ≤ daysUntilExpiry l now → daysUntilExpiry l now < 1 →
      l.IsExpiringOrExpired now = (true, "expiring_today")) ∧
    (l.expiresAt ≠ 0 → l.isExpired = false →
      1 ≤ daysUntilExpiry l now → daysUntilExpiry l now < 7 →
      l.IsExpiringOrExpired now = (true, "expiring_soon")) ∧
    (l.expiresAt ≠ 0 → l.isExpired = false →
      7 ≤ daysUntilExpiry l now →
      l.IsExpiringOrExpired now = (false, "")) := by
  refine ⟨?_, ?_, ?_, ?_, ?_, ?_⟩
  · intro h1
    simp [Link.IsExpiringOrExpired, h1]
  · intro h1 h2
    simp [Link.IsExpiringOrExpired, h1, h2]
  · intro h1 h2 h3
    simp [Link.IsExpiringOrExpired, h1, h2, h3]
  · intro h1 h2 h3 h4
    have hn0 : ¬daysUntilExpiry l now < 0 := not_lt.mpr h3
    simp [Link.IsExpiringOrExpired, h1, h2, hn0, h4]
  · intro h1 h2 h3 h4
    have hn0 : ¬daysUntilExpiry l now < 0 := by linarith
    have hn1 : ¬daysUntilExpiry l now < 1 := by linarith
    simp [Link.IsExpiringOrExpired, h1, h2, hn0, hn1, h4]
  · intro h1 h2 h3
    have hn0 : ¬daysUntilExpiry l now < 0 := by linarith
    have hn1 : ¬daysUntilExpiry l now < 1 := by linarith
    have hn7 : ¬daysUntilExpiry l now < 7 := by linarith
    simp [Link.IsExpiringOrExpired, h1, h2, hn0, hn1, hn7]

def c2Link : Link :=
  { createdAt := 0
    updatedAt := 0
    expiresAt := 3 * nsPerDay
    id := "abc"
    short := "abc"
    url := "https://x.example"
    createdBy := "u1"
    accessLevel := "Public"
    allowedUsers := []
    clickCount := 0
    isExpired := false }

/-- Witness for C2: a link expiring three days from `now = 0` reports
`(true, "expiring_soon")`. -/
theorem isExpiringOrExpired_cases_witness :
    c2Link.IsExpiringOrExpired 0 = (true, "expiring_soon") := by
  refine (isExpiringOrExpired_cases c2Link 0).2.2.2.2.1 (by decide) rfl ?_ ?_
  · norm_num [daysUntilExpiry, c2Link, nsPerDay]
  · norm_num [daysUntilExpiry, c2Link, nsPerDay]

/-- Claim C3: `GetByShort` fails with `NotFound` when the short code is
absent; when the stored link has a non-zero `expiresAt` with `now` after it
and a still-false `isExpired`, the returned link carries `isExpired = true`
and the detached best-effort write persists the flipped flag (its failure
leaves the store untouched and never changes the returned value); in every
other case the returned link is exactly the stored one, and the flag is
never flipped from `true` back to `false`. -/
theorem getByShort_contract (s : Store) (now wnow : Time) (short : String)
    (writeOk : Bool) :
    (s short = none →
      getByShortRun s now wnow short writeOk =
        (Except.error ErrKind.NotFound, s)) ∧
    (∀ l, s short = some l → l.expiresAt ≠ 0 → l.expiresAt < now →
      l.isExpired = false →
      (getByShortRun s now wnow short writeOk).1 =
        Except.ok { l with isExpired := true } ∧
      (writeOk = true →
        (getByShortRun s now wnow short writeOk).2 short =
          some { l with isExpired := true, updatedAt := wnow }) ∧
      (writeOk = false →
        (getByShortRun s now wnow short writeOk).2 = s)) ∧
    (∀ l, s short = some l →
      ¬(l.expiresAt ≠ 0 ∧ l.expiresAt < now ∧ l.isExpired = false) →
      getByShortRun s now wnow short writeOk = (Except.ok l, s)) ∧
    (∀ l, s short = some l → l.isExpired = true →
      (getByShortRun s now wnow short writeOk).1 = Except.ok l) ∧
    ((getByShortRun s now wnow short true).1 =
      (getByShortRun s now wnow short false).1) := by
  refine ⟨?_, ?_, ?_, ?_, ?_⟩
  · intro h
    simp [getByShortRun, h]
  · intro l hl h1 h2 h3
    refine ⟨?_, ?_, ?_⟩
    · simp [getByShortRun, hl, h1, h2, h3]
    · intro hw
      simp [getByShortRun, hl, h1, h2, h3, hw, setLink]
    · intro hw
      simp [getByShortRun, hl, h1, h2, h3, hw]
  · intro l hl hno
    simp [getByShortRun, hl, hno]
  · intro l hl hexp
    simp [getByShortRun, hl, hexp]
  · cases h : s short
    · simp [getByShortRun, h]
    · simp only [getByShortRun, h]
      split <;> rfl

def c3Link : Link :=
  { createdAt := 1
    updatedAt := 1
    expiresAt := 5
    id := "abc"
    short := "abc"
    url := "https://x.example"
    createdBy := "u1"
    accessLevel := "Public"
    allowedUsers := []
    clickCount := 0
    isExpired := false }

def c3Store : Store := setLink emptyStore "abc" c3Link

/-- Witness for C3: reading an expired, still-unflagged link at `now = 10`
returns the flipped copy, and a successful background write persists it. -/
theorem getByShort_contract_witness :
    (getByShortRun c3Store 10 11 "abc" true).1 =
      Except.ok { c3Link with isExpired := true } ∧
    (getByShortRun c3Store 10 11 "abc" true).2 "abc" =
      some { c3Link with isExpired := true, updatedAt := 11 } := by
  have h := (getByShort_contract c3Store 10 11 "abc" true).2.1 c3Link
    (by decide) (by decide) (by decide) (by decide)
  exact ⟨h.1, h.2.1 rfl⟩

/-- Claim C7: creating a link whose short code is already stored fails with
`AlreadyExists`, whatever the other fields of the second link, and leaves the
whole repository state unchanged. -/
theorem create_duplicate_fails (s : Store) (now : Time) (l0 link2 : Link)
    (h : s link2.short = some l0) :
    create s now link2 = (some ErrKind.AlreadyExists, s) := by
  simp [create, h]

def c7Link : Link :=
  { createdAt := 2
    updatedAt := 2
    expiresAt := 0
    id := "abc"
    short := "abc"
    url := "https://other.example"
    createdBy := "u2"
    accessLevel := "Private"
    allowedUsers := []
    clickCount := 7
    isExpired := false }

/-- Witness for C7: a second create on the taken short code `"abc"` fails
with `AlreadyExists` and returns the store unchanged. -/
theorem create_duplicate_fails_witness :
    create c3Store 9 c7Link = (some ErrKind.AlreadyExists, c3Store) :=
  create_duplicate_fails c3Store 9 c3Link c7Link (by decide)

/-- Claim C9: `IncrementClickCount` on a stored link adds exactly 1 to its
`clickCount` and refreshes `updatedAt`, leaving every other field of that
link and every other stored link unchanged; on an absent short code it
fails with `NotFound` and changes nothing. -/
theorem incrementClickCount_contract (s : Store) (now : Time)
    (short : String) :
    (s short = none →
      incrementClickCount s now short = (some ErrKind.NotFound, s)) ∧
    (∀ l, s short = some l →
      (incrementClickCount s now short).1 = none ∧
      (incrementClickCount s now short).2 short =
        some { l with clickCount := l.clickCount + 1, updatedAt := now } ∧
      (∀ k, k ≠ short → (incrementClickCount s now short).2 k = s k)) := by
  constructor
  · intro h
    simp [incrementClickCount, h]
  · intro l hl
    refine ⟨?_, ?_, ?_⟩
    · simp [incrementClickCount, hl]
    · simp [incrementClickCount, hl, setLink]
    · intro k hk
      simp [incrementClickCount, hl, setLink, hk]

/-- Witness for C9: one increment on the stored link `"abc"` with
`clickCount = 0` yields the same link with `clickCount = 1` and
`updatedAt = 20`, and a different key is untouched. -/
theorem incrementClickCount_contract_witness :
    (incrementClickCount c3Store 20 "abc").1 = none ∧
    (incrementClickCount c3Store 20 "abc").2 "abc" =
      some { c3Link with clickCount := 1, updatedAt := 20 } ∧
    (incrementClickCount c3Store 20 "abc").2 "other" = c3Store "other" := by
  have h := (incrementClickCount_contract c3Store 20 "abc").2 c3Link (by decide)
  exact ⟨h.1, h.2.1, h.2.2 "other" (by decide)⟩

theorem authCreate_fields (s : Store) (now : Time) (req : CreateRequest)
    (userID : String) (l : Link)
    (h : createResultLink (AuthVariant.CreateLink s now req userID) = some l) :
    l.url = (if req.url = "" then "https://example.com" else req.url) ∧
    l.accessLevel =
      (if req.accessLevel ≠ "" ∧
          (req.accessLevel = AccessLevels.Public ∨
           req.accessLevel = AccessLevels.Private ∨
           req.accessLevel = AccessLevels.Restricted) then req.accessLevel
       else AccessLevels.Public) := by
  unfold AuthVariant.CreateLink at h
  by_cases h0 : req.short = ""
  · rw [if_pos h0] at h
    exact absurd h (by simp [createResultLink])
  · rw [if_neg h0] at h
    by_cases hv : validShortCode req.short = false
    · rw [if_pos hv] at h
      exact absurd h (by simp [createResultLink])
    · rw [if_neg hv] at h
      cases hfind : s req.short with
      | some l0 =>
          rw [hfind] at h
          exact absurd h (by simp [createResultLink])
      | none =>
          rw [hfind] at h
          cases hexp : req.expiresAt with
          | empty =>
              rw [hexp] at h
              simp only [saveNewLink, create, NewLink, hfind,
                createResultLink, Option.some.injEq] at h
              subst h
              exact ⟨rfl, rfl⟩
          | invalid =>
              rw [hexp] at h
              exact absurd h (by simp [createResultLink])
          | given t =>
              rw [hexp] at h
              by_cases ht : t < now
              · simp only [Link.SetExpiry, saveNewLink, create, NewLink,
                  hfind, createResultLink, if_pos ht] at h
                exact Option.noConfusion h
              · simp only [Link.SetExpiry, saveNewLink, create, NewLink,
                  hfind, createResultLink, if_neg ht, Option.some.injEq] at h
                subst h
                exact ⟨rfl, rfl⟩

theorem legacyCreate_fields (s : Store) (now : Time)
    (short url hdr : String) (l : Link)
    (h : createResultLink (LegacyVariant.CreateLink s now short url hdr) =
      some l) :
    l.url = (if url = "" then "https://example.com" else url) ∧
    l.accessLevel = AccessLevels.Public := by
  unfold LegacyVariant.CreateLink at h
  by_cases h0 : short = ""
  · rw [if_pos h0] at h
    exact absurd h (by simp [createResultLink])
  · rw [if_neg h0] at h
    by_cases hv : validShortCode short = false
    · rw [if_pos hv] at h
      exact absurd h (by simp [createResultLink])
    · rw [if_neg hv] at h
      cases hfind : s short with
      | some l0 =>
          rw [hfind] at h
          exact absurd h (by simp [createResultLink])
      | none =>
          rw [hfind] at h
          simp only [saveNewLink, create, NewLink, hfind, createResultLink,
            Option.some.injEq] at h
          subst h
          exact ⟨rfl, rfl⟩

def c5Req : CreateRequest :=
  { short := "abc"
    url := "https://x.example"
    accessLevel := "Admin"
    expiresAt := ExpiryField.empty
    allowedUsers := [] }

def c5Link : Link :=
  { createdAt := 100
    updatedAt := 100
    expiresAt := 0
    id := "abc"
    short := "abc"
    url := "https://x.example"
    createdBy := "u1"
    accessLevel := "Public"
    allowedUsers := []
    clickCount := 0
    isExpired := false }

/-- Counterexample to C5: a creation request with the out-of-range access
level `"Admin"` is not rejected — the handler stores the link (with access
level silently replaced by Public) and responds with it. -/
theorem createLink_invalid_access_not_rejected :
    createResultLink (AuthVariant.CreateLink emptyStore 100 c5Req "u1") =
      some c5Link ∧
    (createResultStore (AuthVariant.CreateLink emptyStore 100 c5Req "u1")
      ).getD emptyStore "abc" = some c5Link := by
  constructor <;> decide

/-- Claim C5, amended: a creation request whose access level lies outside
{Public, Private, Restricted} is not rejected; the handler silently stores
the link with access level Public (the default).  Every link stored through
the create handler has its access level in that set, and it equals the
requested one exactly when the requested one is in the set. -/
theorem createLink_access_level_total (s : Store) (now : Time)
    (req : CreateRequest) (userID : String) (l : Link)
    (h : createResultLink (AuthVariant.CreateLink s now req userID) = some l) :
    (l.accessLevel = AccessLevels.Public ∨
     l.accessLevel = AccessLevels.Private ∨
     l.accessLevel = AccessLevels.Restricted) ∧
    ((req.accessLevel = AccessLevels.Public ∨
      req.accessLevel = AccessLevels.Private ∨
      req.accessLevel = AccessLevels.Restricted) →
        l.accessLevel = req.accessLevel) ∧
    (¬(req.accessLevel = AccessLevels.Public ∨
       req.accessLevel = AccessLevels.Private ∨
       req.accessLevel = AccessLevels.Restricted) →
        l.accessLevel = AccessLevels.Public) := by
  have hal := (authCreate_fields s now req userID l h).2
  by_cases hv : req.accessLevel ≠ "" ∧
      (req.accessLevel = AccessLevels.Public ∨
       req.accessLevel = AccessLevels.Private ∨
       req.accessLevel = AccessLevels.Restricted)
  · rw [if_pos hv] at hal
    refine ⟨?_, fun _ => hal, fun hc => absurd hv.2 hc⟩
    rw [hal]
    exact hv.2
  · rw [if_neg hv] at hal
    refine ⟨Or.inl hal, ?_, fun _ => hal⟩
    intro hin
    exfalso
    apply hv
    refine ⟨?_, hin⟩
    intro he
    rw [he] at hin
    rcases hin with hx | hx | hx <;> exact absurd hx (by decide)

/-- Witness for C5 (amended): the link stored for the `"Admin"` request has
access level Public, hence inside the enum. -/
theorem createLink_access_level_total_witness :
    c5Link.accessLevel = AccessLevels.Public ∨
    c5Link.accessLevel = AccessLevels.Private ∨
    c5Link.accessLevel = AccessLevels.Restricted :=
  (createLink_access_level_total emptyStore 100 c5Req "u1" c5Link
    (by decide)).1

def c6Req : CreateRequest :=
  { short := "xyz"
    url := ""
    accessLevel := ""
    expiresAt := ExpiryField.empty
    allowedUsers := [] }

def c6Link : Link :=
  { createdAt := 50
    updatedAt := 50
    expiresAt := 0
    id := "xyz"
    short := "xyz"
    url := "https://example.com"
    createdBy := "anonymous"
    accessLevel := "Public"
    allowedUsers := []
    clickCount := 0
    isExpired := false }

/-- Counterexample to C6: a creation request with an empty URL is not
rejected — the handler stores a link whose URL is the placeholder
`https://example.com` and responds 201. -/
theorem createLink_empty_url_not_rejected :
    createResultLink (AuthVariant.CreateLink emptyStore 50 c6Req "anonymous") =
      some c6Link ∧
    (createResultStore (AuthVariant.CreateLink emptyStore 50 c6Req "anonymous")
      ).getD emptyStore "xyz" = some c6Link := by
  constructor <;> decide

/-- Claim C6, amended: a creation request with an empty URL is not rejected
as malformed; in both handler variants the URL of the stored link falls back to
the placeholder `https://example.com`. -/
theorem createLink_empty_url_defaults :
    (∀ (s : Store) (now : Time) (req : CreateRequest) (userID : String)
        (l : Link), req.url = "" →
      createResultLink (AuthVariant.CreateLink s now req userID) = some l →
      l.url = "https://example.com") ∧
    (∀ (s : Store) (now : Time) (short hdr : String) (l : Link),
      createResultLink (LegacyVariant.CreateLink s now short "" hdr) = some l →
      l.url = "https://example.com") := by
  constructor
  · intro s now req userID l hurl h
    have hu := (authCreate_fields s now req userID l h).1
    rw [hurl] at hu
    simpa using hu
  · intro s now short hdr l h
    have hu := (legacyCreate_fields s now short "" hdr l h).1
    simpa using hu

/-- Witness for C6 (amended): the link stored for the empty-URL request
carries the placeholder URL. -/
theorem createLink_empty_url_defaults_witness :
    c6Link.url = "https://example.com" :=
  createLink_empty_url_defaults.1 emptyStore 50 c6Req "anonymous" c6Link rfl
    (by decide)

def c4Link : Link :=
  { createdAt := 1
    updatedAt := 1
    expiresAt := 5
    id := "a"
    short := "a"
    url := "https://old.example"
    createdBy := "u1"
    accessLevel := "Public"
    allowedUsers := []
    clickCount := 0
    isExpired := true }

def c4Store : Store := setLink emptyStore "a" c4Link

def c4Req : UpdateRequest :=
  { url := "https://new.example"
    accessLevel := ""
    expiresAt := ExpiryField.empty
    allowedUsers := none }

/-- The link the C4 update in fact produces: URL replaced, but also the
expiry cleared and the sticky flag reset. -/
def c4Result : Link :=
  { c4Link with
    url := "https://new.example"
    expiresAt := 0
    isExpired := false
    updatedAt := 10 }

/-- Claim C4, evaluated on the code at the failing input: an update request
that carries only a new URL (its JSON body has no `expires_at` field, which
decodes to the empty string) on a stored link with `expiresAt = 5` and the
sticky `isExpired = true` does NOT leave the expiry alone — the handler
clears `expiresAt` to zero and resets `isExpired` to `false`, both in the
response and in the store. -/
theorem updateLink_url_only_clears_expiry :
    updateResultLink (AuthVariant.UpdateLink c4Store 10 "a" "u1" true c4Req) =
      some c4Result ∧
    (updateResultStore (AuthVariant.UpdateLink c4Store 10 "a" "u1" true c4Req)
      ).getD emptyStore "a" = some c4Result := by
  constructor <;> decide

theorem saveUpdatedLink_ne_forbidden (s : Store) (now : Time) (link : Link) :
    saveUpdatedLink s now link ≠ UpdateResult.forbidden := by
  simp only [saveUpdatedLink]
  split <;> simp

theorem iteNeOf {α : Sort u} {c : Prop} [Decidable c] {a b x : α}
    (ha : a ≠ x) (hb : b ≠ x) : (if c then a else b) ≠ x := by
  split
  · exact ha
  · exact hb

theorem applyUpdate_ne_forbidden (s : Store) (now : Time)
    (req : UpdateRequest) (link : Link) :
    AuthVariant.applyUpdate s now req link ≠ UpdateResult.forbidden := by
  unfold AuthVariant.applyUpdate
  cases hre : req.expiresAt with
  | invalid => simp
  | given t =>
      exact iteNeOf (fun h => UpdateResult.noConfusion h)
        (saveUpdatedLink_ne_forbidden _ _ _)
  | empty =>
      exact iteNeOf (saveUpdatedLink_ne_forbidden _ _ _)
        (saveUpdatedLink_ne_forbidden _ _ _)

def c8Link : Link :=
  { createdAt := 1
    updatedAt := 1
    expiresAt := 5
    id := "gone1"
    short := "gone1"
    url := "https://x.example"
    createdBy := "u1"
    accessLevel := "Public"
    allowedUsers := []
    clickCount := 0
    isExpired := false }

def c8Store : Store := setLink emptyStore "gone1" c8Link

/-- Counterexample to C8: the legacy handler variant has no expiry gate — a
redirect request at `now = 100` on the link expired at `5` is answered with
a redirect to the target URL, not with an error response. -/
theorem legacyRedirect_expired_still_redirects :
    LegacyVariant.RedirectLink c8Store 100 "gone1" "" =
      RedirectResult.redirect "https://x.example" := by
  decide

/-- Claim C8, amended: in the auth-aware handler variant the expiry
evaluator does gate the redirect — a redirect request on an existing link
whose non-zero `expiresAt` lies before `now` is rejected with 410 Gone and
is never redirected; the legacy variant performs no expiry check and
redirects even expired links. -/
theorem authRedirect_expired_gone (s : Store) (now : Time)
    (path userID : String) (l : Link)
    (hstatic : AuthVariant.isStaticPath path = false)
    (hfind : s path = some l) (h0 : l.expiresAt ≠ 0)
    (hlt : l.expiresAt < now) :
    AuthVariant.RedirectLink s now path userID = RedirectResult.gone := by
  have hexp : (expireOnRead l now).IsLinkExpired now = true := by
    simp [Link.IsLinkExpired, expireOnRead_expiresAt, h0, hlt]
  simp [AuthVariant.RedirectLink, hstatic, hfind, hexp]

/-- Witness for C8 (amended): redirecting the expired link through the
auth-aware handler yields 410 Gone. -/
theorem authRedirect_expired_gone_witness :
    AuthVariant.RedirectLink c8Store 100 "gone1" "u9" = RedirectResult.gone :=
  authRedirect_expired_gone c8Store 100 "gone1" "u9" c8Link (by decide)
    (by decide) (by decide) (by decide)

/-- Claim C10: in the ownership-enforcing handler variant, `UpdateLink` and
`DeleteLink` on an existing link return Forbidden exactly when the
requesting identity is not the literal `"anonymous"`, differs from the
creator of the link, and authentication is enabled; consequently a request whose
identity resolves to `"anonymous"` (as happens with no credentials at all)
bypasses the creator-only check and can delete any link even with
authentication enabled. -/
theorem ownership_gate_iff (s : Store) (now : Time) (short userID : String)
    (authEnabled : Bool) (l : Link) (hfind : s short = some l)
    (hshort : short ≠ "") :
    (∀ req, AuthVariant.UpdateLink s now short userID authEnabled req =
        UpdateResult.forbidden ↔
      (userID ≠ "anonymous" ∧ l.createdBy ≠ userID ∧ authEnabled = true)) ∧
    (AuthVariant.DeleteLink s now short userID authEnabled =
        DeleteResult.forbidden ↔
      (userID ≠ "anonymous" ∧ l.createdBy ≠ userID ∧ authEnabled = true)) ∧
    (userID = "anonymous" →
      ∃ s2, AuthVariant.DeleteLink s now short userID authEnabled =
          DeleteResult.noContent s2 ∧ s2 short = none) ∧
    getUserFromContext none "" = ("anonymous", "") := by
  have hcb : (expireOnRead l now).createdBy = l.createdBy :=
    expireOnRead_createdBy l now
  refine ⟨?_, ?_, ?_, rfl⟩
  · intro req
    simp only [AuthVariant.UpdateLink, if_neg hshort, hfind, hcb]
    by_cases hg : userID ≠ "anonymous" ∧ l.createdBy ≠ userID ∧
        authEnabled = true
    · simp [hg]
    · rw [if_neg hg]
      constructor
      · intro hcon
        exact absurd hcon (applyUpdate_ne_forbidden _ _ _ _)
      · intro hgate
        exact absurd hgate hg
  · simp only [AuthVariant.DeleteLink, if_neg hshort, hfind, hcb]
    by_cases hg : userID ≠ "anonymous" ∧ l.createdBy ≠ userID ∧
        authEnabled = true
    · simp [hg]
    · rw [if_neg hg]
      simp only [deleteShort, hfind]
      constructor
      · intro hcon
        exact absurd hcon (by simp)
      · intro hgate
        exact absurd hgate hg
  · intro hanon
    refine ⟨eraseLink s short, ?_, ?_⟩
    · have hg : ¬(userID ≠ "anonymous" ∧ l.createdBy ≠ userID ∧
          authEnabled = true) := by
        intro hcon
        exact hcon.1 hanon
      simp only [AuthVariant.DeleteLink, if_neg hshort, hfind, hcb,
        if_neg hg, deleteShort]
    · simp [eraseLink]

def c10Link : Link :=
  { createdAt := 1
    updatedAt := 1
    expiresAt := 0
    id := "abc"
    short := "abc"
    url := "https://x.example"
    createdBy := "u1"
    allowedUsers := []
    accessLevel := "Private"
    clickCount := 0
    isExpired := false }

def c10Store : Store := setLink emptyStore "abc" c10Link

/-- Witness for C10: with authentication enabled, the non-creator `"u2"` is
forbidden from deleting the link of `"u1"`, while the `"anonymous"` identity
deletes it. -/
theorem ownership_gate_iff_witness :
    AuthVariant.DeleteLink c10Store 5 "abc" "u2" true =
      DeleteResult.forbidden ∧
    (∃ s2, AuthVariant.DeleteLink c10Store 5 "abc" "anonymous" true =
      DeleteResult.noContent s2 ∧ s2 "abc" = none) := by
  constructor
  · exact (ownership_gate_iff c10Store 5 "abc" "u2" true c10Link (by decide)
      (by decide)).2.1.mpr ⟨by decide, by decide, rfl⟩
  · exact (ownership_gate_iff c10Store 5 "abc" "anonymous" true c10Link
      (by decide) (by decide)).2.2.1 rfl

end Golink
